import Mathlib

/-!
Shallow embedding of `src/commands/key_value.rs` from the cloud-spin-plugins
repository: the key-value store CLI commands (create, delete, list, set,
rename), the resource-target resolver they use, and the list renderer.

The command handlers are translated directly from `key_value.rs`.  The
collaborators that live in `links_target.rs` and `links_output.rs` (which are
not part of this source tree) are modelled from the specification and marked
as such in their doc comments.  Remote calls are modelled by an explicit
`CloudClient` record of responses, and each command run returns its result
together with the ordered trace of client calls it issued and the lines it
printed.
-/

/-- Association between a resource and an application: the app name and the
label under which the app refers to the resource (spec section 3). -/
structure AppLink where
  app_name : String
  label : String
deriving DecidableEq

/-- A key value store as returned by the remote service: a name and its links
(`cloud_openapi::models::KeyValueStoreItem`). -/
structure KeyValueStoreItem where
  name : String
  links : List AppLink
deriving DecidableEq

/-- A resource name together with its links, the shape consumed by the
resolver and the renderer (`ResourceLinks` from `links_output.rs`). -/
structure ResourceLinks where
  name : String
  links : List AppLink
deriving DecidableEq

/-- Resource type, used for error text (`ResourceType` from
`links_output.rs`); only the key value store variant is exercised here. -/
inductive ResourceType where
  | keyValueStore
deriving DecidableEq

/-- Human-readable resource type text used in error messages. -/
def ResourceType.description : ResourceType → String
  | .keyValueStore => "key value store"

/-- A resolved selector: a resource addressed directly by name, or indirectly
by a label together with the app using that label (`ResourceTarget` from
`links_target.rs`, spec section 3). -/
inductive ResourceTarget where
  | byName (name : String)
  | byLabel (label : String) (app : String)
deriving DecidableEq

/-- Errors produced by target resolution (spec sections 4.2 and 7). -/
inductive ResolveError where
  | notFound (name : String) (rt : ResourceType)
  | notFoundByLabel (label : String) (app : String) (rt : ResourceType)
  | ambiguous (names : List String)
deriving DecidableEq

/-- Modelled from the spec: rendering of a resolution error to the message
string surfaced to the user; the concrete wording lives in
`links_target.rs`, which is not part of this source tree. -/
def ResolveError.message : ResolveError → String
  | .notFound n rt => "No " ++ rt.description ++ " found with name \"" ++ n ++ "\""
  | .notFoundByLabel l a rt =>
      "No " ++ rt.description ++ " found with label \"" ++ l ++ "\" for app \"" ++ a
        ++ "\"; use the name of the " ++ rt.description ++ " instead"
  | .ambiguous names =>
      "Multiple matching resources: " ++ String.intercalate ", " names
        ++ "; disambiguate by exact name"

/-- Modelled from the spec: the configuration-error message for a malformed
store/label/app combination (`links_target.rs`, not in this source tree). -/
def targetConfigurationErrorMessage : String :=
  "Exactly one of a store name, or a label together with an app, must be provided"

/-- Modelled from the spec: `ResourceTarget::from_inputs` from
`links_target.rs` (not in this source tree).  Valid input is exactly one of
a present store, or a present label together with a present app; an
empty-string value for any of the three is rejected as invalid, distinct
from absent (spec section 4.2). -/
def ResourceTarget.from_inputs (store label app : Option String) :
    Except String ResourceTarget :=
  match store, label, app with
  | some s, none, none =>
      if s.isEmpty then .error targetConfigurationErrorMessage
      else .ok (.byName s)
  | none, some l, some a =>
      if l.isEmpty || a.isEmpty then .error targetConfigurationErrorMessage
      else .ok (.byLabel l a)
  | _, _, _ => .error targetConfigurationErrorMessage

/-- Whether a resource has a link with the given label for the given app. -/
def ResourceLinks.has_link (r : ResourceLinks) (label app : String) : Bool :=
  r.links.any fun k => k.app_name == app && k.label == label

/-- Modelled from the spec: `ResourceTarget::find_in` from `links_target.rs`
(not in this source tree).  `byName` scans for an exact, case-sensitive name
match and reports `notFound` on zero matches; `byLabel` filters to the
resources carrying a link with that label and app, reporting
`notFoundByLabel` on zero matches, the unique resource on one match, and
`ambiguous` with the names of all matches on more than one (spec section
4.2). -/
def ResourceTarget.find_in (t : ResourceTarget) (resources : List ResourceLinks)
    (rt : ResourceType) : Except ResolveError ResourceLinks :=
  match t with
  | .byName n =>
      match resources.find? (fun r => r.name == n) with
      | some r => .ok r
      | none => .error (.notFound n rt)
  | .byLabel l a =>
      match resources.filter (fun r => r.has_link l a) with
      | [] => .error (.notFoundByLabel l a rt)
      | [r] => .ok r
      | rs => .error (.ambiguous (rs.map ResourceLinks.name))

/-- A structural JSON value, the target of serialization in the JSON list
output mode. -/
inductive Json where
  | str (s : String)
  | arr (xs : List Json)
  | obj (fields : List (String × Json))

/-- JSON serialization of one link: an object with app_name and label. -/
def AppLink.toJson (k : AppLink) : Json :=
  .obj [("app_name", .str k.app_name), ("label", .str k.label)]

/-- JSON serialization of one resource: an object with its name and the
array of its links. -/
def ResourceLinks.toJson (r : ResourceLinks) : Json :=
  .obj [("name", .str r.name), ("links", .arr (r.links.map AppLink.toJson))]

/-- JSON serialization of a resource list as an array of objects. -/
def resourcesToJson (rs : List ResourceLinks) : Json :=
  .arr (rs.map ResourceLinks.toJson)

/-- Display grouping strategy (`ResourceGroupBy` from `links_output.rs`). -/
inductive ResourceGroupBy where
  | app
  | resource (rt : ResourceType)
deriving DecidableEq

/-- Output format of the list command (`ListFormat` from
`links_output.rs`). -/
inductive ListFormat where
  | table
  | json
deriving DecidableEq, BEq

/-- Grouping flag of the key value list command (`GroupBy` in
`key_value.rs`). -/
inductive GroupBy where
  | app
  | store
deriving DecidableEq

/-- Conversion of the key value grouping flag to the generic grouping
strategy (the From impl in `key_value.rs`). -/
def GroupBy.toResourceGroupBy : GroupBy → ResourceGroupBy
  | .app => .app
  | .store => .resource .keyValueStore

/-- App filter over a resource list: when an app is supplied, keep only the
resources having at least one link with that app name (spec section 4.3). -/
def filterByApp (rs : List ResourceLinks) (app : Option String) :
    List ResourceLinks :=
  match app with
  | none => rs
  | some a => rs.filter fun r => r.links.any fun k => k.app_name == a

/-- Insertion into a list sorted by a string key. -/
def insertSortedBy (key : α → String) (x : α) : List α → List α
  | [] => [x]
  | y :: ys => if key x ≤ key y then x :: y :: ys else y :: insertSortedBy key x ys

/-- Insertion sort by a string key, used for display ordering. -/
def sortByKey (key : α → String) : List α → List α
  | [] => []
  | x :: xs => insertSortedBy key x (sortByKey key xs)

/-- Modelled from the spec: the grouping engine's app grouping from
`links_output.rs` (not in this source tree).  Each resource appears once per
distinct linked app name, groups are ordered by app name ascending with
resources ordered by name inside each group, and resources with no links go
into a single unlinked group rendered last (spec section 4.3). -/
def groupByAppName (rs : List ResourceLinks) :
    List (String × List ResourceLinks) :=
  let names := sortByKey id ((rs.map (fun r => r.links.map AppLink.app_name)).flatten.dedup)
  let grouped := names.map fun a =>
    (a, sortByKey ResourceLinks.name
      (rs.filter fun r => r.links.any fun k => k.app_name == a))
  let unlinked := sortByKey ResourceLinks.name (rs.filter fun r => r.links.isEmpty)
  if unlinked.isEmpty then grouped else grouped ++ [("(unlinked)", unlinked)]

/-- One observable output of a command: a printed line, a JSON document, or
a rendered table of groups (the table's textual layout is presentation only
and is represented by the grouped data handed to the table writer). -/
inductive OutputEvent where
  | line (s : String)
  | jsonOut (j : Json)
  | tableOut (groups : List (String × List ResourceLinks))

/-- Modelled from the spec: `print_json` from `links_output.rs` (not in this
source tree) serializes the optionally app-filtered, never grouped, flat
resource list as a JSON array of objects with name and links fields and
prints it (spec section 4.4). -/
def print_json (resources : List ResourceLinks) (app : Option String) :
    List OutputEvent :=
  [.jsonOut (resourcesToJson (filterByApp resources app))]

/-- Modelled from the spec: `print_table` from `links_output.rs` (not in
this source tree) renders the optionally app-filtered list grouped by the
chosen strategy: no strategy gives one flat group, app grouping buckets by
linked app, and resource grouping gives a single group labeled by the
resource type (spec sections 4.3 and 4.4). -/
def print_table (resources : List ResourceLinks) (app : Option String)
    (groupBy : Option ResourceGroupBy) (_rt : ResourceType) :
    List OutputEvent :=
  let rs := filterByApp resources app
  match groupBy with
  | none => [.tableOut [("", rs)]]
  | some .app => [.tableOut (groupByAppName rs)]
  | some (.resource rt2) => [.tableOut [(rt2.description, rs)]]

/-- One remote client call, recorded in the order issued
(`CloudClientInterface` methods used by `key_value.rs`). -/
inductive ClientCall where
  | getKeyValueStores
  | createKeyValueStore (name : String)
  | deleteKeyValueStore (name : String)
  | renameKeyValueStore (name : String) (new_name : String)
  | addKeyValuePair (store : String) (key : String) (value : String)
deriving DecidableEq

/-- The remote client, modelled by the responses it would return to each
call (`CloudClientInterface`); an error value is the remote failure's
message. -/
structure CloudClient where
  get_key_value_stores : Except String (List KeyValueStoreItem)
  create_key_value_store : String → Except String Unit
  delete_key_value_store : String → Except String Unit
  rename_key_value_store : String → String → Except String Unit
  add_key_value_pair : String → String → String → Except String Unit

/-- Outcome of one command run: the result (an error is the outermost
message, matching anyhow's context), the ordered trace of client calls
issued, and the output produced. -/
structure CmdOutcome where
  result : Except String Unit
  calls : List ClientCall
  printed : List OutputEvent

/-- Arguments of the create command (`CreateCommand` in `key_value.rs`). -/
structure CreateCommand where
  name : String

/-- Arguments of the delete command (`DeleteCommand` in `key_value.rs`). -/
structure DeleteCommand where
  name : String
  yes : Bool

/-- Arguments of the list command (`ListCommand` in `key_value.rs`); the
store filter flag is declared by the CLI but unused by the run body. -/
structure ListCommand where
  app : Option String
  store : Option String
  group_by : Option GroupBy
  format : ListFormat

/-- Arguments of the set command (`SetCommand` in `key_value.rs`). -/
structure SetCommand where
  store : Option String
  label : Option String
  app : Option String
  key_values : List (String × String)

/-- Arguments of the rename command (`RenameCommand` in `key_value.rs`). -/
structure RenameCommand where
  name : String
  new_name : String

/-- Conversion of fetched store items to resolver input
(`to_resource_links` in `key_value.rs`). -/
def to_resource_links (stores : List KeyValueStoreItem) : List ResourceLinks :=
  stores.map fun s => ⟨s.name, s.links⟩

/-- CreateCommand::run from `key_value.rs`: fetch the list, fail if the name
is already present, otherwise request creation and report success. -/
def CreateCommand.run (cmd : CreateCommand) (client : CloudClient) : CmdOutcome :=
  match client.get_key_value_stores with
  | .error _ =>
      ⟨.error ("Error listing key value stores \x27" ++ cmd.name ++ "\x27"),
        [.getKeyValueStores], []⟩
  | .ok list =>
      if list.any (fun kv => kv.name == cmd.name) then
        ⟨.error ("Key value store \"" ++ cmd.name ++ "\" already exists"),
          [.getKeyValueStores], []⟩
      else
        match client.create_key_value_store cmd.name with
        | .error _ =>
            ⟨.error ("Error creating key value store \x27" ++ cmd.name ++ "\x27"),
              [.getKeyValueStores, .createKeyValueStore cmd.name], []⟩
        | .ok _ =>
            ⟨.ok (), [.getKeyValueStores, .createKeyValueStore cmd.name],
              [.line ("Key value store \"" ++ cmd.name ++ "\" created")]⟩

/-- DeleteCommand::run from `key_value.rs`: fetch the list, fail if the name
is absent, then delete when the yes flag is set or the user confirms, and
otherwise exit successfully without mutation.  The interactive confirmation
(`prompt_delete_resource`) is an injected collaborator, modelled by the
boolean answer the user would give. -/
def DeleteCommand.run (cmd : DeleteCommand) (client : CloudClient)
    (confirm : Bool) : CmdOutcome :=
  match client.get_key_value_stores with
  | .error _ =>
      ⟨.error ("Error listing key value stores \x27" ++ cmd.name ++ "\x27"),
        [.getKeyValueStores], []⟩
  | .ok list =>
      match list.find? (fun kv => kv.name == cmd.name) with
      | none =>
          ⟨.error ("No key value store found with name \"" ++ cmd.name ++ "\""),
            [.getKeyValueStores], []⟩
      | some _ =>
          if cmd.yes || confirm then
            match client.delete_key_value_store cmd.name with
            | .error _ =>
                ⟨.error ("Problem deleting key value store \x27" ++ cmd.name ++ "\x27"),
                  [.getKeyValueStores, .deleteKeyValueStore cmd.name], []⟩
            | .ok _ =>
                ⟨.ok (), [.getKeyValueStores, .deleteKeyValueStore cmd.name],
                  [.line ("Key value store \"" ++ cmd.name ++ "\" deleted")]⟩
          else
            ⟨.ok (), [.getKeyValueStores], []⟩

/-- ListCommand::run from `key_value.rs`: reject JSON format combined with a
grouping strategy before any client call, fetch the list, print a single
line when it is empty, and otherwise hand the resource links to the JSON or
table renderer. -/
def ListCommand.run (cmd : ListCommand) (client : CloudClient) : CmdOutcome :=
  if cmd.format == .json && cmd.group_by.isSome then
    ⟨.error "Grouping is not supported with JSON format output", [], []⟩
  else
    match client.get_key_value_stores with
    | .error _ =>
        ⟨.error "Error listing key value stores", [.getKeyValueStores], []⟩
    | .ok stores =>
        if stores.isEmpty then
          ⟨.ok (), [.getKeyValueStores], [.line "No key value stores found"]⟩
        else
          let resource_links := stores.map fun kv => ResourceLinks.mk kv.name kv.links
          match cmd.format with
          | .json =>
              ⟨.ok (), [.getKeyValueStores], print_json resource_links cmd.app⟩
          | .table =>
              ⟨.ok (), [.getKeyValueStores],
                print_table resource_links cmd.app
                  (cmd.group_by.map GroupBy.toResourceGroupBy) .keyValueStore⟩

/-- The set command's pair loop from `key_value.rs`: issue one add request
per pair in order; a failing pair aborts the remaining ones and surfaces the
failure wrapped with its context.  Returns the calls issued and the
result. -/
def setPairsLoop (client : CloudClient) (store : String) :
    List (String × String) → List ClientCall × Except String Unit
  | [] => ([], .ok ())
  | (k, v) :: rest =>
      match client.add_key_value_pair store k v with
      | .error _ =>
          ([.addKeyValuePair store k v],
            .error ("Error adding key value pair \x27" ++ k ++ "=" ++ v
              ++ "\x27 to store \x27" ++ store ++ "\x27"))
      | .ok _ =>
          let next := setPairsLoop client store rest
          (.addKeyValuePair store k v :: next.1, next.2)

/-- SetCommand::run from `key_value.rs`: construct the target from the
inputs, fetch the list, resolve the target to a store, then set each
supplied pair in order. -/
def SetCommand.run (cmd : SetCommand) (client : CloudClient) : CmdOutcome :=
  match ResourceTarget.from_inputs cmd.store cmd.label cmd.app with
  | .error e => ⟨.error e, [], []⟩
  | .ok target =>
      match client.get_key_value_stores with
      | .error _ =>
          ⟨.error "Problem fetching key value stores", [.getKeyValueStores], []⟩
      | .ok stores =>
          match target.find_in (to_resource_links stores) .keyValueStore with
          | .error e => ⟨.error e.message, [.getKeyValueStores], []⟩
          | .ok r =>
              let next := setPairsLoop client r.name cmd.key_values
              ⟨next.2, .getKeyValueStores :: next.1, []⟩

/-- RenameCommand::run from `key_value.rs`: fetch the list, fail if the
current name is absent, then request the rename and report success naming
both identifiers.  The remote rename's own failure propagates without added
context. -/
def RenameCommand.run (cmd : RenameCommand) (client : CloudClient) : CmdOutcome :=
  match client.get_key_value_stores with
  | .error _ =>
      ⟨.error ("Error listing key value stores \x27" ++ cmd.name ++ "\x27"),
        [.getKeyValueStores], []⟩
  | .ok list =>
      let found := list.any fun kv => kv.name == cmd.name
      if !found then
        ⟨.error ("No key value store found with name \"" ++ cmd.name ++ "\""),
          [.getKeyValueStores], []⟩
      else
        match client.rename_key_value_store cmd.name cmd.new_name with
        | .error e =>
            ⟨.error e, [.getKeyValueStores, .renameKeyValueStore cmd.name cmd.new_name], []⟩
        | .ok _ =>
            ⟨.ok (), [.getKeyValueStores, .renameKeyValueStore cmd.name cmd.new_name],
              [.line ("Key value store \"" ++ cmd.name ++ "\" is now named \""
                ++ cmd.new_name ++ "\"")]⟩

/-- A client whose list response is the given value and whose mutating calls
all succeed, used to instantiate theorems at concrete inputs. -/
def mkClient (stores : Except String (List KeyValueStoreItem)) : CloudClient :=
  ⟨stores, fun _ => .ok (), fun _ => .ok (), fun _ _ => .ok (), fun _ _ _ => .ok ()⟩

/-- Unfolding equation of the resolver on a direct-name target. -/
theorem find_in_byName (L : List ResourceLinks) (n : String) (rt : ResourceType) :
    ResourceTarget.find_in (.byName n) L rt =
      match L.find? (fun r => r.name == n) with
      | some r => .ok r
      | none => .error (.notFound n rt) := rfl

/-- Unfolding equation of the resolver on a label-and-app target. -/
theorem find_in_byLabel (L : List ResourceLinks) (l a : String) (rt : ResourceType) :
    ResourceTarget.find_in (.byLabel l a) L rt =
      match L.filter (fun r => r.has_link l a) with
      | [] => .error (.notFoundByLabel l a rt)
      | [r] => .ok r
      | rs => .error (.ambiguous (rs.map ResourceLinks.name)) := rfl

/-- If the filter of a list by a predicate is exactly one element, the first
match found in the list is that element. -/
theorem find?_of_filter_singleton {α : Type} (p : α → Bool) (L : List α) (r : α)
    (h : L.filter p = [r]) : L.find? p = some r := by
  induction L with
  | nil => simp at h
  | cons x xs ih =>
      by_cases hx : p x
      · rw [List.filter_cons_of_pos hx] at h
        rw [List.find?_cons_of_pos _ hx]
        have hx2 : x = r := (List.cons_eq_cons.mp h).1
        rw [hx2]
      · rw [List.filter_cons_of_neg hx] at h
        rw [List.find?_cons_of_neg _ hx]
        exact ih h

/-- C1: resolving a `byLabel` target returns the ambiguity error listing the
names of all matches exactly when strictly more than one resource carries a
matching link, returns the not-found-by-label error exactly when none does,
and returns the unique matching resource otherwise; ambiguity is never
resolved to a first match. -/
theorem byLabel_resolution (L : List ResourceLinks) (l a : String)
    (rt : ResourceType) :
    (ResourceTarget.find_in (.byLabel l a) L rt =
        .error (.ambiguous ((L.filter fun r => r.has_link l a).map ResourceLinks.name))
      ↔ 1 < (L.filter fun r => r.has_link l a).length)
    ∧ (ResourceTarget.find_in (.byLabel l a) L rt = .error (.notFoundByLabel l a rt)
      ↔ (L.filter fun r => r.has_link l a).length = 0)
    ∧ (∀ r : ResourceLinks, (L.filter fun r => r.has_link l a) = [r] →
        ResourceTarget.find_in (.byLabel l a) L rt = .ok r) := by
  rw [find_in_byLabel]
  rcases hm : L.filter fun r => r.has_link l a with _ | ⟨r1, _ | ⟨r2, rs⟩⟩ <;>
    rw [hm] <;> simp

/-- C1 witness: on a two-store list both linked to the same label and app,
resolution is ambiguous with both names; with a single linked store it
returns that store; with an unrelated label it is not found. -/
theorem byLabel_resolution_witness :
    (ResourceTarget.find_in (.byLabel "default" "app1")
        [⟨"kv1", [⟨"app1", "default"⟩]⟩, ⟨"kv2", [⟨"app1", "default"⟩]⟩]
        .keyValueStore = .error (.ambiguous ["kv1", "kv2"]))
    ∧ (ResourceTarget.find_in (.byLabel "default" "app1")
        [⟨"kv1", [⟨"app1", "default"⟩]⟩, ⟨"kv2", []⟩] .keyValueStore =
          .ok ⟨"kv1", [⟨"app1", "default"⟩]⟩)
    ∧ (ResourceTarget.find_in (.byLabel "other" "app1")
        [⟨"kv1", [⟨"app1", "default"⟩]⟩] .keyValueStore =
          .error (.notFoundByLabel "other" "app1" .keyValueStore)) := by
  refine ⟨?_, ?_, ?_⟩
  · have h := (byLabel_resolution
      [⟨"kv1", [⟨"app1", "default"⟩]⟩, ⟨"kv2", [⟨"app1", "default"⟩]⟩]
      "default" "app1" .keyValueStore).1.mpr (by decide)
    simpa using h
  · exact (byLabel_resolution
      [⟨"kv1", [⟨"app1", "default"⟩]⟩, ⟨"kv2", []⟩]
      "default" "app1" .keyValueStore).2.2 ⟨"kv1", [⟨"app1", "default"⟩]⟩ (by decide)
  · exact (byLabel_resolution [⟨"kv1", [⟨"app1", "default"⟩]⟩]
      "other" "app1" .keyValueStore).2.1.mpr (by decide)

/-- C2: resolving a `byName` target returns the not-found error when no
resource bears that exact name, and returns the unique resource with that
name when exactly one does. -/
theorem byName_resolution (L : List ResourceLinks) (n : String)
    (rt : ResourceType) :
    ((∀ r ∈ L, r.name ≠ n) →
        ResourceTarget.find_in (.byName n) L rt = .error (.notFound n rt))
    ∧ (∀ r : ResourceLinks, (L.filter fun x => x.name == n) = [r] →
        ResourceTarget.find_in (.byName n) L rt = .ok r) := by
  rw [find_in_byName]
  constructor
  · intro h
    have hnone : L.find? (fun r => r.name == n) = none := by
      rw [List.find?_eq_none]
      intro x hx
      simpa using h x hx
    rw [hnone]
  · intro r hr
    rw [find?_of_filter_singleton _ _ _ hr]

/-- C2 witness: a one-store list resolves its own name and reports not found
for a fresh name. -/
theorem byName_resolution_witness :
    (ResourceTarget.find_in (.byName "kv2") [⟨"kv1", []⟩] .keyValueStore =
        .error (.notFound "kv2" .keyValueStore))
    ∧ (ResourceTarget.find_in (.byName "kv1") [⟨"kv1", []⟩, ⟨"kv2", []⟩]
        .keyValueStore = .ok ⟨"kv1", []⟩) :=
  ⟨(byName_resolution [⟨"kv1", []⟩] "kv2" .keyValueStore).1 (by decide),
    (byName_resolution [⟨"kv1", []⟩, ⟨"kv2", []⟩] "kv1" .keyValueStore).2
      ⟨"kv1", []⟩ (by decide)⟩

/-- C3: requesting JSON format together with any grouping strategy fails
with the configuration error before any client call is issued: the call
trace is empty for every client. -/
theorem list_json_grouping_rejected (app st : Option String) (g : GroupBy)
    (client : CloudClient) :
    ListCommand.run ⟨app, st, some g, .json⟩ client =
      ⟨.error "Grouping is not supported with JSON format output", [], []⟩ := rfl

/-- C4 counterexample: with JSON format, no grouping and an empty fetched
list, the command prints the no-stores line rather than the JSON array
serialization of the empty list. -/
theorem list_json_empty_counterexample :
    (ListCommand.run ⟨none, none, none, .json⟩ (mkClient (.ok []))).printed =
        [.line "No key value stores found"]
    ∧ (ListCommand.run ⟨none, none, none, .json⟩ (mkClient (.ok []))).printed ≠
        [.jsonOut (resourcesToJson (filterByApp (to_resource_links []) none))] := by
  constructor
  · rfl
  · intro h
    rw [show (ListCommand.run ⟨none, none, none, .json⟩ (mkClient (.ok []))).printed =
        [OutputEvent.line "No key value stores found"] from rfl] at h
    injection h with h1 _
    exact OutputEvent.noConfusion h1

/-- C4 amended: for every nonempty fetched resource list, the list command
with JSON format and no grouping succeeds and outputs exactly the JSON array
serialization of the optionally app-filtered flat list of name-and-links
objects; the empty list instead prints the single no-stores line. -/
theorem list_json_nonempty (app st : Option String) (client : CloudClient)
    (L : List KeyValueStoreItem) (hget : client.get_key_value_stores = .ok L)
    (hne : L ≠ []) :
    ListCommand.run ⟨app, st, none, .json⟩ client =
      ⟨.ok (), [.getKeyValueStores],
        [.jsonOut (resourcesToJson
          (filterByApp (L.map fun kv => ⟨kv.name, kv.links⟩) app))]⟩ := by
  simp [ListCommand.run, hget, print_json, List.isEmpty_iff, hne]

/-- C4 witness: a one-store list rendered as JSON with no app filter. -/
theorem list_json_nonempty_witness :
    ListCommand.run ⟨none, none, none, .json⟩
        (mkClient (.ok [⟨"kv1", [⟨"app1", "default"⟩]⟩])) =
      ⟨.ok (), [.getKeyValueStores],
        [.jsonOut (resourcesToJson [⟨"kv1", [⟨"app1", "default"⟩]⟩])]⟩ :=
  list_json_nonempty none none
    (mkClient (.ok [⟨"kv1", [⟨"app1", "default"⟩]⟩]))
    [⟨"kv1", [⟨"app1", "default"⟩]⟩] rfl (by decide)

/-- C5: when the fetched list already holds the requested name, create fails
with the already-exists message and issues no create call; when the name is
fresh, exactly one create call with that name is issued, and on its success
the success message is printed. -/
theorem create_behaviour (n : String) (client : CloudClient)
    (L : List KeyValueStoreItem) (hget : client.get_key_value_stores = .ok L) :
    ((∃ kv ∈ L, kv.name = n) →
      CreateCommand.run ⟨n⟩ client =
        ⟨.error ("Key value store \"" ++ n ++ "\" already exists"),
          [.getKeyValueStores], []⟩)
    ∧ ((∀ kv ∈ L, kv.name ≠ n) →
      (CreateCommand.run ⟨n⟩ client).calls =
          [.getKeyValueStores, .createKeyValueStore n]
      ∧ (client.create_key_value_store n = .ok () →
          (CreateCommand.run ⟨n⟩ client).printed =
            [.line ("Key value store \"" ++ n ++ "\" created")])) := by
  constructor
  · intro h
    have hb : (L.any fun kv => kv.name == n) = true := by
      simp only [List.any_eq_true, beq_iff_eq]
      exact h
    simp [CreateCommand.run, hget, hb]
  · intro h
    have hb : (L.any fun kv => kv.name == n) = false := by
      simp only [List.any_eq_false, beq_iff_eq]
      exact h
    constructor
    · rcases hc : client.create_key_value_store n with e | u
      · simp [CreateCommand.run, hget, hb, hc]
      · simp [CreateCommand.run, hget, hb, hc]
    · intro hok
      simp [CreateCommand.run, hget, hb, hok]

/-- C5 witness: creating kv1 over an existing kv1 fails with no create call;
creating kv1 when only kv2 exists issues the create call and prints the
success line. -/
theorem create_behaviour_witness :
    (CreateCommand.run ⟨"kv1"⟩ (mkClient (.ok [⟨"kv1", []⟩, ⟨"kv2", []⟩])) =
      ⟨.error "Key value store \"kv1\" already exists", [.getKeyValueStores], []⟩)
    ∧ ((CreateCommand.run ⟨"kv1"⟩ (mkClient (.ok [⟨"kv2", []⟩]))).calls =
        [.getKeyValueStores, .createKeyValueStore "kv1"]
      ∧ (CreateCommand.run ⟨"kv1"⟩ (mkClient (.ok [⟨"kv2", []⟩]))).printed =
        [.line "Key value store \"kv1\" created"]) := by
  refine ⟨?_, ?_, ?_⟩
  · exact (create_behaviour "kv1" (mkClient (.ok [⟨"kv1", []⟩, ⟨"kv2", []⟩]))
      [⟨"kv1", []⟩, ⟨"kv2", []⟩] rfl).1 (by decide)
  · exact ((create_behaviour "kv1" (mkClient (.ok [⟨"kv2", []⟩]))
      [⟨"kv2", []⟩] rfl).2 (by decide)).1
  · exact ((create_behaviour "kv1" (mkClient (.ok [⟨"kv2", []⟩]))
      [⟨"kv2", []⟩] rfl).2 (by decide)).2 rfl

/-- C7: when the delete target exists, the yes flag is unset and the user
declines the confirmation, the command issues no delete call and exits
successfully. -/
theorem delete_declined (n : String) (client : CloudClient)
    (L : List KeyValueStoreItem) (kv : KeyValueStoreItem)
    (hget : client.get_key_value_stores = .ok L)
    (hfind : L.find? (fun x => x.name == n) = some kv) :
    DeleteCommand.run ⟨n, false⟩ client false = ⟨.ok (), [.getKeyValueStores], []⟩ := by
  simp [DeleteCommand.run, hget, hfind]

/-- C7 witness: declining the deletion of an existing kv1 performs no delete
call and returns success. -/
theorem delete_declined_witness :
    DeleteCommand.run ⟨"kv1", false⟩ (mkClient (.ok [⟨"kv1", []⟩])) false =
      ⟨.ok (), [.getKeyValueStores], []⟩ :=
  delete_declined "kv1" (mkClient (.ok [⟨"kv1", []⟩])) [⟨"kv1", []⟩] ⟨"kv1", []⟩
    rfl rfl

/-- C8: when no fetched store bears the requested name, delete fails with
the not-found message naming it and issues no delete call, for every yes
flag and every confirmation answer. -/
theorem delete_not_found (n : String) (yes confirm : Bool) (client : CloudClient)
    (L : List KeyValueStoreItem) (hget : client.get_key_value_stores = .ok L)
    (habs : ∀ kv ∈ L, kv.name ≠ n) :
    DeleteCommand.run ⟨n, yes⟩ client confirm =
      ⟨.error ("No key value store found with name \"" ++ n ++ "\""),
        [.getKeyValueStores], []⟩ := by
  have hnone : L.find? (fun x => x.name == n) = none := by
    rw [List.find?_eq_none]
    intro x hx
    simpa using habs x hx
  simp [DeleteCommand.run, hget, hnone]

/-- C8 witness: deleting kv1 with the yes flag over an empty list fails with
the not-found message and no delete call. -/
theorem delete_not_found_witness :
    DeleteCommand.run ⟨"kv1", true⟩ (mkClient (.ok [])) true =
      ⟨.error "No key value store found with name \"kv1\"",
        [.getKeyValueStores], []⟩ :=
  delete_not_found "kv1" true true (mkClient (.ok [])) [] rfl (by decide)

/-- C9: rename fails with the not-found message and issues no rename call
when no fetched store bears the current name; otherwise exactly one rename
call with the old and new names is issued, and on its success the message
naming both is printed. -/
theorem rename_behaviour (n m : String) (client : CloudClient)
    (L : List KeyValueStoreItem) (hget : client.get_key_value_stores = .ok L) :
    ((∀ kv ∈ L, kv.name ≠ n) →
      RenameCommand.run ⟨n, m⟩ client =
        ⟨.error ("No key value store found with name \"" ++ n ++ "\""),
          [.getKeyValueStores], []⟩)
    ∧ ((∃ kv ∈ L, kv.name = n) →
      (RenameCommand.run ⟨n, m⟩ client).calls =
          [.getKeyValueStores, .renameKeyValueStore n m]
      ∧ (client.rename_key_value_store n m = .ok () →
          (RenameCommand.run ⟨n, m⟩ client).printed =
            [.line ("Key value store \"" ++ n ++ "\" is now named \"" ++ m ++ "\"")])) := by
  constructor
  · intro h
    have hb : (L.any fun kv => kv.name == n) = false := by
      simp only [List.any_eq_false, beq_iff_eq]
      exact h
    simp [RenameCommand.run, hget, hb]
  · intro h
    have hb : (L.any fun kv => kv.name == n) = true := by
      simp only [List.any_eq_true, beq_iff_eq]
      exact h
    constructor
    · rcases hc : client.rename_key_value_store n m with e | u
      · simp [RenameCommand.run, hget, hb, hc]
      · simp [RenameCommand.run, hget, hb, hc]
    · intro hok
      simp [RenameCommand.run, hget, hb, hok]

/-- C9 witness: renaming an absent kv1 fails with the not-found message and
no rename call; renaming an existing kv1 to kv3 issues the call and prints
the message naming both. -/
theorem rename_behaviour_witness :
    (RenameCommand.run ⟨"kv1", "kv3"⟩ (mkClient (.ok [⟨"kv2", []⟩])) =
      ⟨.error "No key value store found with name \"kv1\"",
        [.getKeyValueStores], []⟩)
    ∧ ((RenameCommand.run ⟨"kv1", "kv3"⟩ (mkClient (.ok [⟨"kv1", []⟩]))).calls =
        [.getKeyValueStores, .renameKeyValueStore "kv1" "kv3"]
      ∧ (RenameCommand.run ⟨"kv1", "kv3"⟩ (mkClient (.ok [⟨"kv1", []⟩]))).printed =
        [.line "Key value store \"kv1\" is now named \"kv3\""]) := by
  refine ⟨?_, ?_, ?_⟩
  · exact (rename_behaviour "kv1" "kv3" (mkClient (.ok [⟨"kv2", []⟩]))
      [⟨"kv2", []⟩] rfl).1 (by decide)
  · exact ((rename_behaviour "kv1" "kv3" (mkClient (.ok [⟨"kv1", []⟩]))
      [⟨"kv1", []⟩] rfl).2 (by decide)).1
  · exact ((rename_behaviour "kv1" "kv3" (mkClient (.ok [⟨"kv1", []⟩]))
      [⟨"kv1", []⟩] rfl).2 (by decide)).2 rfl

/-- C10: rename checks only the current name locally: when the current name
exists in the fetched list, the rename call is issued to the client even
when another fetched store already bears the new name. -/
theorem rename_new_name_unchecked (n m : String) (client : CloudClient)
    (L : List KeyValueStoreItem) (hget : client.get_key_value_stores = .ok L)
    (hold : ∃ kv ∈ L, kv.name = n) (_hnew : ∃ kv ∈ L, kv.name = m) :
    (RenameCommand.run ⟨n, m⟩ client).calls =
      [.getKeyValueStores, .renameKeyValueStore n m] := by
  have hb : (L.any fun kv => kv.name == n) = true := by
    simp only [List.any_eq_true, beq_iff_eq]
    exact hold
  rcases hc : client.rename_key_value_store n m with e | u
  · simp [RenameCommand.run, hget, hb, hc]
  · simp [RenameCommand.run, hget, hb, hc]

/-- C10 witness: renaming kv1 to the already-present name kv2 still issues
the rename call, with no local duplicate check. -/
theorem rename_new_name_unchecked_witness :
    (RenameCommand.run ⟨"kv1", "kv2"⟩
        (mkClient (.ok [⟨"kv1", []⟩, ⟨"kv2", []⟩]))).calls =
      [.getKeyValueStores, .renameKeyValueStore "kv1" "kv2"] :=
  rename_new_name_unchecked "kv1" "kv2"
    (mkClient (.ok [⟨"kv1", []⟩, ⟨"kv2", []⟩])) [⟨"kv1", []⟩, ⟨"kv2", []⟩]
    rfl (by decide) (by decide)

/-- When every pair's add request succeeds, the pair loop issues one add
call per pair in the supplied order and succeeds. -/
theorem setPairsLoop_all_ok (client : CloudClient) (store : String)
    (pairs : List (String × String))
    (h : ∀ p ∈ pairs, client.add_key_value_pair store p.1 p.2 = .ok ()) :
    setPairsLoop client store pairs =
      (pairs.map fun p => .addKeyValuePair store p.1 p.2, .ok ()) := by
  induction pairs with
  | nil => rfl
  | cons p ps ih =>
      obtain ⟨k, v⟩ := p
      have hp := h (k, v) (by simp)
      simp [setPairsLoop, hp, ih fun q hq => h q (by simp [hq])]

/-- When every pair before a failing pair succeeds and that pair's add
request fails, the pair loop issues the add calls for the preceding pairs
and the failing pair only, in order, and surfaces the failure with its
context; no call is issued for the remaining pairs. -/
theorem setPairsLoop_abort (client : CloudClient) (store : String)
    (done rest : List (String × String)) (k v e : String)
    (hdone : ∀ p ∈ done, client.add_key_value_pair store p.1 p.2 = .ok ())
    (hfail : client.add_key_value_pair store k v = .error e) :
    setPairsLoop client store (done ++ (k, v) :: rest) =
      ((done ++ [(k, v)]).map fun p => .addKeyValuePair store p.1 p.2,
        .error ("Error adding key value pair \x27" ++ k ++ "=" ++ v
          ++ "\x27 to store \x27" ++ store ++ "\x27")) := by
  induction done with
  | nil => simp [setPairsLoop, hfail]
  | cons p ps ih =>
      obtain ⟨k0, v0⟩ := p
      have hp := hdone (k0, v0) (by simp)
      simp [setPairsLoop, hp, ih fun q hq => hdone q (by simp [hq])]

/-- C6: once the target resolves to a store, set issues one add call per
supplied pair in the supplied order: when every pair succeeds the command
succeeds after exactly those calls, and when the pairs split as a succeeding
prefix followed by a failing pair, the calls stop at the failing pair (none
are issued for the remaining pairs), its failure is surfaced, and the
already-issued calls are not rolled back. -/
theorem set_pairs_behaviour (s l a : Option String)
    (pairs : List (String × String)) (client : CloudClient)
    (target : ResourceTarget) (L : List KeyValueStoreItem) (r : ResourceLinks)
    (htarget : ResourceTarget.from_inputs s l a = .ok target)
    (hget : client.get_key_value_stores = .ok L)
    (hfind : target.find_in (to_resource_links L) .keyValueStore = .ok r) :
    ((∀ p ∈ pairs, client.add_key_value_pair r.name p.1 p.2 = .ok ()) →
      SetCommand.run ⟨s, l, a, pairs⟩ client =
        ⟨.ok (), .getKeyValueStores ::
          (pairs.map fun p => .addKeyValuePair r.name p.1 p.2), []⟩)
    ∧ (∀ (done rest : List (String × String)) (k v e : String),
        pairs = done ++ (k, v) :: rest →
        (∀ p ∈ done, client.add_key_value_pair r.name p.1 p.2 = .ok ()) →
        client.add_key_value_pair r.name k v = .error e →
        SetCommand.run ⟨s, l, a, pairs⟩ client =
          ⟨.error ("Error adding key value pair \x27" ++ k ++ "=" ++ v
              ++ "\x27 to store \x27" ++ r.name ++ "\x27"),
            .getKeyValueStores ::
              ((done ++ [(k, v)]).map fun p => .addKeyValuePair r.name p.1 p.2),
            []⟩) := by
  constructor
  · intro h
    simp [SetCommand.run, htarget, hget, hfind, setPairsLoop_all_ok client r.name pairs h]
  · intro done rest k v e hsplit hdone hfail
    subst hsplit
    simp [SetCommand.run, htarget, hget, hfind,
      setPairsLoop_abort client r.name done rest k v e hdone hfail]

/-- A client holding the single store kv1 whose add-pair requests all fail,
used to exhibit the abort behaviour at a concrete input. -/
def failingPairClient : CloudClient :=
  ⟨.ok [⟨"kv1", []⟩], fun _ => .ok (), fun _ => .ok (), fun _ _ => .ok (),
    fun _ _ _ => .error "transport failure"⟩

/-- C6 witness: setting one pair on the existing store kv1 issues exactly
one add call with the store, key and value; when the first pair's request
fails, only that call is issued and the failure is surfaced with its
context, with no call for the second pair. -/
theorem set_pairs_behaviour_witness :
    (SetCommand.run ⟨some "kv1", none, none, [("key", "value")]⟩
        (mkClient (.ok [⟨"kv1", []⟩])) =
      ⟨.ok (), [.getKeyValueStores, .addKeyValuePair "kv1" "key" "value"], []⟩)
    ∧ (SetCommand.run ⟨some "kv1", none, none, [("key", "value"), ("k2", "v2")]⟩
        failingPairClient =
      ⟨.error "Error adding key value pair \x27key=value\x27 to store \x27kv1\x27",
        [.getKeyValueStores, .addKeyValuePair "kv1" "key" "value"], []⟩) := by
  constructor
  · exact (set_pairs_behaviour (some "kv1") none none [("key", "value")]
      (mkClient (.ok [⟨"kv1", []⟩])) (.byName "kv1") [⟨"kv1", []⟩] ⟨"kv1", []⟩
      rfl rfl rfl).1 (fun p _ => rfl)
  · exact (set_pairs_behaviour (some "kv1") none none
      [("key", "value"), ("k2", "v2")] failingPairClient (.byName "kv1")
      [⟨"kv1", []⟩] ⟨"kv1", []⟩ rfl rfl rfl).2
      [] [("k2", "v2")] "key" "value" "transport failure" rfl
      (fun p hp => absurd hp (List.not_mem_nil p)) rfl
